import Mathlib

/-!
Shallow embedding of the slackware-pkg build orchestrator.

The repository has two revisions of the same program:
* the modular package `src/slackware_pkg/` (models.py, packager.py, release.py,
  git.py, builders.py, builder.py, config.py, main.py) — embedded below at top level;
* the consolidated legacy single file `main.py` — embedded in the `Legacy` namespace.

Machine-level conventions of the embedding: Python strings are Lean `String`
(a list of characters); `str.split()`, `str.strip()`, `str.rstrip` and
`str.startswith`/`str.endswith` are modelled character-exactly for the ASCII
whitespace classes Lean provides (`Char.isWhitespace`); `str.isdigit` is
modelled as `Char.isDigit` (ASCII digits). External effects (subprocess calls
for `git`, the build command, `cargo`, `tar`, `curl`, and filesystem contents)
are supplied by explicit environment records of oracles, and the pipeline
functions return the observable action trace alongside their boolean result.
-/

/-- Python `str.strip()` on the character list: drop whitespace from both ends. -/
def stripChars (l : List Char) : List Char :=
  ((l.dropWhile Char.isWhitespace).reverse.dropWhile Char.isWhitespace).reverse

/-- Python `str.strip()`. -/
def py_strip (s : String) : String :=
  String.mk (stripChars s.data)

/-- Accumulator pass of Python `str.split()` with no separator: split on runs of
whitespace, discarding empty pieces. `cur` holds the current word reversed. -/
def wordsAux : List Char → List Char → List (List Char)
  | [], cur => if cur.isEmpty then [] else [cur.reverse]
  | c :: cs, cur =>
    if c.isWhitespace then
      if cur.isEmpty then wordsAux cs [] else cur.reverse :: wordsAux cs []
    else
      wordsAux cs (c :: cur)

/-- Python `desc.split()` as used in `create_slack_desc`. -/
def py_split (s : String) : List String :=
  (wordsAux s.data []).map String.mk

/-- The greedy word-wrap loop of `create_slack_desc` (packager.py lines 41 to 49,
identical in the legacy main.py lines 327 to 335): keep appending a word plus one
space while the running length stays within 60 characters, otherwise flush the
stripped current line and start a new one; a final nonempty current line is
flushed at the end. -/
def wrap_loop : List String → List String → String → List String
  | [], acc, current =>
    if current = "" then acc else acc ++ [py_strip current]
  | w :: ws, acc, current =>
    if current.length + w.length + 1 ≤ 60 then
      wrap_loop ws acc (current ++ (w ++ " "))
    else
      wrap_loop ws (acc ++ [py_strip current]) (w ++ " ")

/-- The `desc_lines` list computed by `create_slack_desc` from the package
description: greedy word-wrap of the whitespace-split words. -/
def desc_lines (desc : String) : List String :=
  wrap_loop (py_split desc) [] ""

/-- The fixed header of the slack-desc file: six literal comment lines, a blank
line, and the handy-ruler line padded with `len(name) - 1` spaces (packager.py
lines 25 to 34). Python `' ' * (len(name) - 1)` is empty for an empty name, as is
`List.replicate (name.length - 1)` under truncated subtraction. -/
def slack_desc_header (name : String) : List String :=
  [ "# HOW TO EDIT THIS FILE:",
    "# The \"handy ruler\" below makes it easier to edit a package description.",
    "# Line up the first \x27|\x27 above the \x27:\x27 following the base package name, and",
    "# the \x27|\x27 on the right side marks the last column you can put a character in.",
    "# You must make exactly 11 lines for the formatting to be correct.  It\x27s also",
    "# customary to leave one space after the \x27:\x27.",
    "",
    String.mk (List.replicate (name.length - 1) ' ') ++
      "|-----handy-ruler------------------------------------------------------|" ]

/-- The eleven description label lines of the slack-desc file (packager.py lines
52 to 56): `for i in range(11)` emits `name ++ ": " ++ desc_lines[i]` when the
index is in range and the bare `name ++ ":"` otherwise. -/
def slack_desc_rows (name desc : String) : List String :=
  (List.range 11).map (fun i =>
    match (desc_lines desc)[i]? with
    | some l => name ++ ": " ++ l
    | none => name ++ ":")

/-- The full line list written to `install/slack-desc` by `create_slack_desc`. -/
def slack_desc_file (name desc : String) : List String :=
  slack_desc_header name ++ slack_desc_rows name desc

/-- Package record of the modular revision (models.py). The constructor derives
`version` from `tag`; `from_dict` never passes a version explicitly, so `version`
is exposed below as a derived function of `tag`. -/
structure Package where
  name : String
  git_url : String
  tag : String
  description : String
  build : Nat
  enabled : Bool
  release : Bool
  build_env : Option String
  build_command : Option String
  bin_path : Option String
  only : Bool

/-- Version derivation of models.py lines 130 to 135: when the tag starts with
the character `v`, has a second character and that character is a digit, return
the tag without the leading `v`; otherwise return the tag verbatim. Python
`str.isdigit` is modelled as `Char.isDigit`. -/
def derive_version_from_tag (tag : String) : String :=
  match tag.data with
  | 'v' :: c :: rest => if c.isDigit then String.mk (c :: rest) else tag
  | _ => tag

/-- The `version` attribute set by the `Package` constructor. -/
def Package.version (pkg : Package) : String :=
  derive_version_from_tag pkg.tag

/-- Python exceptions that the embedded code can raise. -/
inductive PyExc where
  | attributeError
deriving DecidableEq

/-- Attribute access `pkg.branch`, performed by git.py line 18 and release.py
line 24. The `Package` class of models.py sets only the attributes `name`,
`git_url`, `tag`, `description`, `build`, `enabled`, `release`, `build_env`,
`build_command`, `bin_path`, `only` and `version` — it defines no `branch`
attribute — so this access raises `AttributeError` for every package. -/
def Package.branchAttr (_pkg : Package) : Except PyExc String :=
  Except.error PyExc.attributeError

/-- Python `s.rstrip(c)`: remove trailing occurrences of the character `c`. -/
def py_rstrip (s : String) (c : Char) : String :=
  String.mk (s.data.reverse.dropWhile (· = c)).reverse

/-- Python `s.endswith(suffix)` for a concrete suffix. -/
def py_endswith (s t : String) : Bool :=
  t.data.isSuffixOf s.data

/-- Python `s[:-4]`: drop the last four characters. -/
def py_drop_last4 (s : String) : String :=
  String.mk (s.data.take (s.data.length - 4))

/-- The default `arch` argument of `create_package_archive` and
`download_release`. -/
def defaultArch : String := "x86_64"

/-- The archive file name computed by `create_package_archive` (packager.py
line 70): the f-string `name-version-arch-build.tgz`. -/
def create_package_archive_filename (pkg : Package) (arch : String) : String :=
  pkg.name ++ "-" ++ pkg.version ++ "-" ++ arch ++ "-" ++ toString pkg.build ++ ".tgz"

/-- The output file name computed by `download_release` (release.py line 35):
the same f-string `name-version-arch-build.tgz`. -/
def download_release_filename (pkg : Package) (arch : String) : String :=
  pkg.name ++ "-" ++ pkg.version ++ "-" ++ arch ++ "-" ++ toString pkg.build ++ ".tgz"

/-- `construct_release_url` of release.py lines 13 to 25: right-strip slashes
from `git_url`, drop a trailing `.git`, then format the download URL from the
`branch` attribute — whose access raises `AttributeError`, since models.py
defines `tag` instead. -/
def construct_release_url (pkg : Package) : Except PyExc String :=
  let git_url := py_rstrip pkg.git_url '/'
  let git_url := if py_endswith git_url ".git" then py_drop_last4 git_url else git_url
  match pkg.branchAttr with
  | Except.error e => Except.error e
  | Except.ok branch =>
    Except.ok (git_url ++ "/releases/download/" ++ branch ++ "/" ++
      pkg.name ++ "-" ++ pkg.version ++ "-linux64.tgz")

/-- Release URL as the specification words it (spec section 6): the source URL
without a trailing `.git`, then `/releases/download/` with the ref (the `tag`
field), name and version substituted. Stated here only for comparison with the
source-derived `construct_release_url`. -/
def spec_release_url (pkg : Package) : String :=
  let base := py_rstrip pkg.git_url '/'
  let base := if py_endswith base ".git" then py_drop_last4 base else base
  base ++ "/releases/download/" ++ pkg.tag ++ "/" ++
    pkg.name ++ "-" ++ pkg.version ++ "-linux64.tgz"

/-- Observable external actions of the pipeline: each constructor records one
invocation of an external process or filesystem operation. -/
inductive Act where
  | gitClone (url branch : String)
  | curl (url : String)
  | runBuildCommand (cmd : String)
  | installBinary (name : String)
  | cargoBuild (name : String)
  | installBinaries (name : String)
  | writeSlackDesc (name : String)
  | tar (filename : String)
  | cleanup (name : String)
deriving DecidableEq

/-- Oracle environment for the modular pipeline: outcomes of the external
subprocess calls and filesystem checks, one oracle per call site. -/
structure Env where
  cloneOk : Package → Bool
  downloadOk : Package → Bool
  buildCmdOk : Package → Bool
  binaryOk : Package → Bool
  tarOk : Package → Bool

/-- Modelled from the spec: `GenericBuilder` is imported by builder.py from
builders.py but is absent from the repository sources (builders.py defines only
`Builder` and `RustBuilder`). Per spec section 4.2 the generic command builder
claims any package with a non-empty `build_command`. -/
def genericCanBuild (pkg : Package) : Bool :=
  match pkg.build_command with
  | some cmd => !(cmd.isEmpty)
  | none => false

/-- Modelled from the spec: `GenericBuilder.build` per spec section 4.2 —
execute `build_command` as a shell line (oracle outcome); a non-zero exit is a
build failure; on success the binary at `bin_path` must exist and be a regular
file (oracle outcome) and is installed into the staging tree. -/
def genericBuild (env : Env) (pkg : Package) : Bool × List Act :=
  match pkg.build_command with
  | none => (false, [])
  | some cmd =>
    if env.buildCmdOk pkg then
      if env.binaryOk pkg then
        (true, [Act.runBuildCommand cmd, Act.installBinary pkg.name])
      else
        (false, [Act.runBuildCommand cmd])
    else
      (false, [Act.runBuildCommand cmd])

/-- `build_package` of builder.py lines 50 to 61: linear scan over the
registered builders — the list `[GenericBuilder()]` — returning the claiming
builder applied to the package, and `False` when no builder claims it. -/
def build_package (env : Env) (pkg : Package) : Bool × List Act :=
  if genericCanBuild pkg then genericBuild env pkg else (false, [])

/-- `GitRepository.clone_or_update` of git.py lines 13 to 45: reads
`pkg.branch` (raising `AttributeError`) before invoking git; a failed clone
subprocess is caught and reported as `none`. -/
def clone_or_update (env : Env) (pkg : Package) :
    Except PyExc (Option Unit) × List Act :=
  match pkg.branchAttr with
  | Except.error e => (Except.error e, [])
  | Except.ok branch =>
    if env.cloneOk pkg then
      (Except.ok (some ()), [Act.gitClone pkg.git_url branch])
    else
      (Except.ok none, [Act.gitClone pkg.git_url branch])

/-- `ReleaseDownloader.download_release` of release.py lines 27 to 59:
construct the URL (which raises inside `construct_release_url`), then fetch via
curl into the output file named by the `.tgz` convention; a curl failure is
caught and reported as `none`. -/
def download_release (env : Env) (pkg : Package) :
    Except PyExc (Option String) × List Act :=
  match construct_release_url pkg with
  | Except.error e => (Except.error e, [])
  | Except.ok url =>
    if env.downloadOk pkg then
      (Except.ok (some (download_release_filename pkg defaultArch)), [Act.curl url])
    else
      (Except.ok none, [Act.curl url])

/-- `build_single_package_direct` of builder.py lines 63 to 136. Release
packages go straight to `download_release` inside a try block with no temp
directory and no cleanup; source packages run clone, build, slack-desc and tar
inside a try block whose finally clause always cleans up the temp directory.
Any exception is caught and turns into a `false` result. -/
def build_single_package_direct (env : Env) (pkg : Package) : Bool × List Act :=
  if pkg.release then
    match download_release env pkg with
    | (Except.error _, acts) => (false, acts)
    | (Except.ok none, acts) => (false, acts)
    | (Except.ok (some _), acts) => (true, acts)
  else
    let body : Bool × List Act :=
      match clone_or_update env pkg with
      | (Except.error _, acts) => (false, acts)
      | (Except.ok none, acts) => (false, acts)
      | (Except.ok (some _), acts) =>
        match build_package env pkg with
        | (false, bacts) => (false, acts ++ bacts)
        | (true, bacts) =>
          let dacts := [Act.writeSlackDesc pkg.name]
          let fname := create_package_archive_filename pkg defaultArch
          if env.tarOk pkg then
            (true, acts ++ bacts ++ dacts ++ [Act.tar fname])
          else
            (false, acts ++ bacts ++ dacts ++ [Act.tar fname])
    (body.1, body.2 ++ [Act.cleanup pkg.name])

/-- Per-package report of `build_all_packages`: either the skip message for a
disabled package, or the result and action trace of
`build_single_package_direct`. -/
inductive Report where
  | skipped (name : String)
  | processed (name : String) (ok : Bool) (acts : List Act)
deriving DecidableEq

/-- Act trace attributed to a report. -/
def Report.actions : Report → List Act
  | Report.skipped _ => []
  | Report.processed _ _ acts => acts

/-- `build_all_packages` of builder.py lines 138 to 170: iterate the configured
packages in order, emit the skip message for disabled ones, and run
`build_single_package_direct` for the rest. -/
def build_all_packages (env : Env) (pkgs : List Package) : List Report :=
  pkgs.map (fun pkg =>
    if pkg.enabled then
      let r := build_single_package_direct env pkg
      Report.processed pkg.name r.1 r.2
    else
      Report.skipped pkg.name)

namespace Legacy

/-- Build configuration of the legacy main.py `BuildConfig` dataclass, with the
defaults `__post_init__` fills in. -/
structure BuildConfig where
  features : List String
  target : Option String
  cargo_flags : List String
  env : List (String × String)

/-- Package record of the legacy main.py dataclass: the git reference field is
named `branch` and `version` is an explicit required field; `binaries` defaults
to the single entry `[name]` in `__post_init__`. -/
structure LPackage where
  name : String
  git_url : String
  branch : String
  version : String
  description : String
  build : Nat
  enabled : Bool
  binaries : List String
  build_config : BuildConfig

/-- Outcome of one external call: normal success, caught failure (non-zero
exit), or an exception that propagates to the per-package handler. -/
inductive SRes where
  | ok
  | fail
  | exn
deriving DecidableEq

/-- Oracle environment for the legacy pipeline, one oracle per external call or
filesystem check. `hasCargo` models whether the cloned tree contains a
Cargo.toml; `binFound` models existence of each named binary under the cargo
release directory; `descOk` models the slack-desc file write. -/
structure LEnv where
  clone : LPackage → SRes
  hasCargo : LPackage → Bool
  cargo : LPackage → SRes
  binFound : LPackage → String → Bool
  descOk : LPackage → Bool
  tar : LPackage → SRes

/-- Archive file name of the legacy `create_package_archive` (main.py line 356):
the f-string `name-version-arch-build.tgz`. -/
def archive_filename (pkg : LPackage) (arch : String) : String :=
  pkg.name ++ "-" ++ pkg.version ++ "-" ++ arch ++ "-" ++ toString pkg.build ++ ".tgz"

/-- `RustBuilder.build` plus `_install_artifacts` of main.py lines 195 to 288:
run cargo (outcome from the oracle; non-zero exit is a failure, an unexpected
exception propagates), then install the binaries named in `pkg.binaries`,
failing only when none of them is found. -/
def rust_build (env : LEnv) (pkg : LPackage) : Except Unit Bool × List Act :=
  match env.cargo pkg with
  | SRes.exn => (Except.error (), [Act.cargoBuild pkg.name])
  | SRes.fail => (Except.ok false, [Act.cargoBuild pkg.name])
  | SRes.ok =>
    if pkg.binaries.any (fun b => env.binFound pkg b) then
      (Except.ok true, [Act.cargoBuild pkg.name, Act.installBinaries pkg.name])
    else
      (Except.ok false, [Act.cargoBuild pkg.name])

/-- `build_package` of main.py lines 415 to 426: linear scan over the
registered builders — the list `[RustBuilder()]`, whose `can_build` checks for a
Cargo.toml in the cloned tree — returning `False` when no builder claims the
package. -/
def build_package (env : LEnv) (pkg : LPackage) : Except Unit Bool × List Act :=
  if env.hasCargo pkg then rust_build env pkg else (Except.ok false, [])

/-- Terminal state of one package inside the legacy `build_all_packages` loop. -/
inductive LOutcome where
  | failedAcquire
  | failedBuild
  | failedArchive
  | raised
  | succeeded
deriving DecidableEq

/-- The per-package body of the legacy `build_all_packages` loop (main.py lines
453 to 499) for one enabled package: clone, build, slack-desc, tar inside a try
block — every failure path reaches the `finally` clause, so the cleanup of the
temp directory is recorded unconditionally at the end of the trace. -/
def process_one (env : LEnv) (pkg : LPackage) : LOutcome × List Act :=
  let body : LOutcome × List Act :=
    match env.clone pkg with
    | SRes.exn => (LOutcome.raised, [Act.gitClone pkg.git_url pkg.branch])
    | SRes.fail => (LOutcome.failedAcquire, [Act.gitClone pkg.git_url pkg.branch])
    | SRes.ok =>
      let cacts := [Act.gitClone pkg.git_url pkg.branch]
      match build_package env pkg with
      | (Except.error _, bacts) => (LOutcome.raised, cacts ++ bacts)
      | (Except.ok false, bacts) => (LOutcome.failedBuild, cacts ++ bacts)
      | (Except.ok true, bacts) =>
        if env.descOk pkg then
          let dacts := [Act.writeSlackDesc pkg.name]
          let fname := archive_filename pkg defaultArch
          match env.tar pkg with
          | SRes.exn => (LOutcome.raised, cacts ++ bacts ++ dacts ++ [Act.tar fname])
          | SRes.fail =>
            (LOutcome.failedArchive, cacts ++ bacts ++ dacts ++ [Act.tar fname])
          | SRes.ok =>
            (LOutcome.succeeded, cacts ++ bacts ++ dacts ++ [Act.tar fname])
        else
          (LOutcome.raised, cacts ++ bacts)
  (body.1, body.2 ++ [Act.cleanup pkg.name])

/-- Per-package report of the legacy loop. -/
inductive LReport where
  | skipped (name : String)
  | processed (name : String) (r : LOutcome × List Act)
deriving DecidableEq

/-- `build_all_packages` of the legacy main.py lines 428 to 505: iterate the
configured packages in order; disabled ones only get the skip message; enabled
ones run the full per-package body with its try, except and finally clauses. -/
def build_all_packages (env : LEnv) (pkgs : List LPackage) : List LReport :=
  pkgs.map (fun pkg =>
    if pkg.enabled then LReport.processed pkg.name (process_one env pkg)
    else LReport.skipped pkg.name)

end Legacy

/-- Parsed state of the configuration file as the CLI sees it: missing file,
unreadable contents (invalid JSON or a record missing a required field), or the
parsed package list. -/
inductive ConfigFile where
  | missing
  | malformed
  | parsed (pkgs : List Package)

/-- Command-line arguments of the modular main.py that decide the control flow:
the config path is summarized by the `ConfigFile` state, and `package` is the
optional single-package selector. -/
structure Args where
  package : Option String

/-- `find_package_in_config` of the modular main.py lines 36 to 53: a missing or
unreadable config yields `None`, otherwise the first package record with the
requested name is returned. -/
def find_package_in_config (cf : ConfigFile) (pname : String) : Option Package :=
  match cf with
  | ConfigFile.parsed pkgs => pkgs.find? (fun p => p.name == pname)
  | _ => none

/-- Process exit code of the modular main.py `main` (lines 69 to 121): exit 1
when the config file does not exist; in single-package mode exit 1 when the
named package is not found, otherwise exit 0 or 1 with the result of
`build_single_package_direct`; in batch mode `load_packages` exits 1 on a
missing or unreadable config, and otherwise `build_all_packages` runs, its
per-package failures are only printed, and the process falls off `main` with
exit code 0. -/
def main_exit (env : Env) (cf : ConfigFile) (args : Args) : Nat :=
  match cf with
  | ConfigFile.missing => 1
  | _ =>
    match args.package with
    | some pname =>
      match find_package_in_config cf pname with
      | none => 1
      | some pkg => if (build_single_package_direct env pkg).1 then 0 else 1
    | none =>
      match cf with
      | ConfigFile.parsed _ => 0
      | _ => 1

/-- `create_package_archive` of packager.py lines 61 to 88 as a function of the
tar outcome: on success the archive is the output directory joined with the
conventional file name, on failure no file is reported. -/
def create_package_archive (tarOk : Bool) (pkg : Package) (output_dir : List String)
    (arch : String) : Option (List String) :=
  if tarOk then some (output_dir ++ [create_package_archive_filename pkg arch]) else none

/-- Oracle environment in which every external call succeeds. -/
def allOkEnv : Env :=
  { cloneOk := fun _ => true
    downloadOk := fun _ => true
    buildCmdOk := fun _ => true
    binaryOk := fun _ => true
    tarOk := fun _ => true }

/-- Concrete sample package used in closed statements: a source-built package. -/
def fooPkg : Package :=
  { name := "foo"
    git_url := "https://example.com/foo.git"
    tag := "v1.2.3"
    description := "a small terminal utility"
    build := 1
    enabled := true
    release := false
    build_env := none
    build_command := some "make"
    bin_path := some "out/foo"
    only := false }

/-- Concrete sample package used in closed statements: a release-flagged
package resembling the micro editor entry the source comments mention. -/
def microPkg : Package :=
  { name := "micro"
    git_url := "https://github.com/zyedidia/micro.git"
    tag := "v2.0.14"
    description := "A modern and intuitive terminal-based text editor"
    build := 1
    enabled := true
    release := true
    build_env := none
    build_command := none
    bin_path := none
    only := false }

/-- Concrete sample package used in closed statements: a disabled package. -/
def disabledPkg : Package :=
  { name := "off"
    git_url := "https://example.com/off.git"
    tag := "v0.1.0"
    description := "disabled entry"
    build := 1
    enabled := false
    release := false
    build_env := none
    build_command := some "make"
    bin_path := some "out/off"
    only := false }

namespace Legacy

/-- Legacy oracle environment in which every external call succeeds. -/
def allOkEnv : LEnv :=
  { clone := fun _ => SRes.ok
    hasCargo := fun _ => true
    cargo := fun _ => SRes.ok
    binFound := fun _ _ => true
    descOk := fun _ => true
    tar := fun _ => SRes.ok }

/-- Legacy oracle environment whose cloned trees contain no Cargo.toml. -/
def noCargoEnv : LEnv :=
  { allOkEnv with hasCargo := fun _ => false }

/-- Concrete legacy sample package. -/
def samplePkg : LPackage :=
  { name := "lt"
    git_url := "https://example.com/lt.git"
    branch := "main"
    version := "1.0"
    description := "legacy tool"
    build := 1
    enabled := true
    binaries := ["lt"]
    build_config := { features := [], target := none, cargo_flags := [], env := [] } }

/-- Concrete legacy sample package, disabled. -/
def sampleDisabledPkg : LPackage :=
  { samplePkg with name := "ltoff", enabled := false }

end Legacy

/-! ### Helper lemmas about the string operations -/

lemma stripChars_length_le (l : List Char) : (stripChars l).length ≤ l.length := by
  unfold stripChars
  rw [List.length_reverse]
  calc ((l.dropWhile Char.isWhitespace).reverse.dropWhile Char.isWhitespace).length
      ≤ (l.dropWhile Char.isWhitespace).reverse.length :=
        (List.dropWhile_sublist _).length_le
    _ = (l.dropWhile Char.isWhitespace).length := List.length_reverse _
    _ ≤ l.length := (List.dropWhile_sublist _).length_le

lemma py_strip_length_le (s : String) : (py_strip s).length ≤ s.length :=
  stripChars_length_le s.data

lemma stripChars_append_space (l : List Char) :
    stripChars (l ++ [' ']) = stripChars l := by
  unfold stripChars
  rw [List.dropWhile_append]
  by_cases h : (l.dropWhile Char.isWhitespace).isEmpty
  · rw [if_pos h]
    rw [List.isEmpty_iff] at h
    rw [h]
    decide
  · rw [if_neg h]
    rw [List.reverse_append]
    simp only [List.reverse_cons, List.reverse_nil, List.nil_append, List.singleton_append]
    rw [List.dropWhile_cons_of_pos (by rfl : Char.isWhitespace ' ' = true)]

lemma py_strip_append_space (s : String) : py_strip (s ++ " ") = py_strip s := by
  unfold py_strip
  rw [String.data_append]
  exact congrArg String.mk (stripChars_append_space s.data)

lemma dropWhile_eq_self_of_not (p : Char → Bool) (l : List Char)
    (h : ∀ c ∈ l, p c = false) : l.dropWhile p = l := by
  induction l with
  | nil => rfl
  | cons c cs _ =>
    rw [List.dropWhile_cons_of_neg (by simp [h c (by simp)])]

lemma stripChars_eq_self (l : List Char)
    (h : ∀ c ∈ l, Char.isWhitespace c = false) : stripChars l = l := by
  unfold stripChars
  rw [dropWhile_eq_self_of_not _ _ h,
      dropWhile_eq_self_of_not _ _ (fun c hc => h c (List.mem_reverse.mp hc)),
      List.reverse_reverse]

lemma wordsAux_no_ws (l : List Char) :
    ∀ cur, (∀ c ∈ cur, Char.isWhitespace c = false) →
      ∀ w ∈ wordsAux l cur, ∀ c ∈ w, Char.isWhitespace c = false := by
  induction l with
  | nil =>
    intro cur hcur w hw
    unfold wordsAux at hw
    by_cases h : cur.isEmpty
    · rw [if_pos h] at hw
      simp at hw
    · rw [if_neg h] at hw
      simp only [List.mem_singleton] at hw
      subst hw
      exact fun c hc => hcur c (List.mem_reverse.mp hc)
  | cons c cs ih =>
    intro cur hcur w hw
    unfold wordsAux at hw
    by_cases hws : c.isWhitespace
    · rw [if_pos hws] at hw
      by_cases hemp : cur.isEmpty
      · rw [if_pos hemp] at hw
        exact ih [] (by simp) w hw
      · rw [if_neg hemp] at hw
        rcases List.mem_cons.mp hw with h1 | h2
        · subst h1
          exact fun d hd => hcur d (List.mem_reverse.mp hd)
        · exact ih [] (by simp) w h2
    · rw [if_neg hws] at hw
      refine ih (c :: cur) ?_ w hw
      intro d hd
      rcases List.mem_cons.mp hd with h1 | h2
      · subst h1
        exact Bool.eq_false_iff.mpr hws
      · exact hcur d h2

lemma py_split_no_ws (s : String) (w : String) (hw : w ∈ py_split s) :
    ∀ c ∈ w.data, Char.isWhitespace c = false := by
  unfold py_split at hw
  rcases List.mem_map.mp hw with ⟨u, hu, rfl⟩
  exact wordsAux_no_ws s.data [] (by simp) u hu

lemma py_strip_of_split (s : String) (w : String) (hw : w ∈ py_split s) :
    py_strip w = w := by
  unfold py_strip
  rw [stripChars_eq_self w.data (py_split_no_ws s w hw)]

/-! ### Helper lemmas about the wrap loop -/

lemma wrap_loop_extends (ws : List String) :
    ∀ acc current, ∃ rest, wrap_loop ws acc current = acc ++ rest := by
  induction ws with
  | nil =>
    intro acc current
    unfold wrap_loop
    by_cases h : current = ""
    · exact ⟨[], by rw [if_pos h, List.append_nil]⟩
    · exact ⟨[py_strip current], by rw [if_neg h]⟩
  | cons w ws ih =>
    intro acc current
    unfold wrap_loop
    by_cases h : current.length + w.length + 1 ≤ 60
    · rw [if_pos h]
      exact ih acc (current ++ (w ++ " "))
    · rw [if_neg h]
      rcases ih (acc ++ [py_strip current]) (w ++ " ") with ⟨rest, hrest⟩
      exact ⟨py_strip current :: rest, by rw [hrest, List.append_assoc]; rfl⟩

lemma wrap_loop_flush_head (ws : List String) (acc : List String) (current : String)
    (h : 60 ≤ current.length) :
    ∃ rest, wrap_loop ws acc current = acc ++ py_strip current :: rest := by
  cases ws with
  | nil =>
    refine ⟨[], ?_⟩
    unfold wrap_loop
    have hne : ¬current = "" := by
      intro hemp
      subst hemp
      exact absurd h (by decide)
    rw [if_neg hne]
  | cons w ws =>
    unfold wrap_loop
    rw [if_neg (by omega)]
    rcases wrap_loop_extends ws (acc ++ [py_strip current]) (w ++ " ") with ⟨rest, hrest⟩
    exact ⟨rest, by rw [hrest, List.append_assoc]; rfl⟩

lemma wrap_loop_bound (ws : List String) :
    ∀ acc current, (∀ w ∈ ws, w.length ≤ 60) → (∀ l ∈ acc, l.length ≤ 60) →
      (py_strip current).length ≤ 60 →
      ∀ l ∈ wrap_loop ws acc current, l.length ≤ 60 := by
  induction ws with
  | nil =>
    intro acc current _ hacc hcur l hl
    unfold wrap_loop at hl
    by_cases h : current = ""
    · rw [if_pos h] at hl
      exact hacc l hl
    · rw [if_neg h] at hl
      rcases List.mem_append.mp hl with h1 | h2
      · exact hacc l h1
      · rw [List.mem_singleton] at h2
        subst h2
        exact hcur
  | cons w ws ih =>
    intro acc current hws hacc hcur l hl
    unfold wrap_loop at hl
    by_cases h : current.length + w.length + 1 ≤ 60
    · rw [if_pos h] at hl
      refine ih acc (current ++ (w ++ " ")) (fun v hv => hws v (by simp [hv])) hacc ?_ l hl
      rw [← String.append_assoc, py_strip_append_space]
      calc (py_strip (current ++ w)).length
          ≤ (current ++ w).length := py_strip_length_le _
        _ = current.length + w.length := String.length_append _ _
        _ ≤ 60 := by omega
    · rw [if_neg h] at hl
      refine ih (acc ++ [py_strip current]) (w ++ " ")
        (fun v hv => hws v (by simp [hv])) ?_ ?_ l hl
      · intro v hv
        rcases List.mem_append.mp hv with h1 | h2
        · exact hacc v h1
        · rw [List.mem_singleton] at h2
          subst h2
          exact hcur
      · rw [py_strip_append_space]
        exact le_trans (py_strip_length_le w) (hws w (by simp))

/-! ### Helper lemma about the eleven-row padding -/

lemma range_map_padded (g : String → String) (c : String) (L : List String) :
    ∀ k : Nat,
      (List.range k).map (fun i =>
        match L[i]? with
        | some l => g l
        | none => c)
      = (L.take k).map g ++ List.replicate (k - L.length) c := by
  induction L with
  | nil =>
    intro k
    simp only [List.getElem?_nil, List.take_nil, List.map_nil, List.nil_append,
      Nat.zero_le, List.length_nil, Nat.sub_zero]
    rw [List.map_const' (List.range k) c, List.length_range]
  | cons x xs ih =>
    intro k
    cases k with
    | zero => simp
    | succ k =>
      rw [List.range_succ_eq_map, List.map_cons, List.map_map]
      have hcomp :
          (List.range k).map ((fun i =>
            match (x :: xs)[i]? with
            | some l => g l
            | none => c) ∘ Nat.succ)
          = (List.range k).map (fun i =>
            match xs[i]? with
            | some l => g l
            | none => c) := by
        refine List.map_congr_left ?_
        intro a _
        simp [Function.comp, List.getElem?_cons_succ]
      rw [hcomp, ih k, List.take_succ_cons, List.map_cons]
      have hsub : k + 1 - (x :: xs).length = k - xs.length := by
        simp only [List.length_cons]
        omega
      rw [hsub]
      simp [List.getElem?_cons_zero]

/-! ### Claim theorems -/

/-- C1: for every package name and every description string, `create_slack_desc`
emits exactly 11 description label lines after the 8 header lines ending in the
ruler line; when the greedy word-wrap of the description yields fewer than 11
lines, each remaining line is exactly the bare `name ++ ":"` with no trailing
content, and wrapped lines beyond the 11th are dropped (only the first 11 wrapped
lines appear). -/
theorem slack_desc_exactly_eleven_label_lines (name desc : String) :
    (slack_desc_file name desc).drop 8 = slack_desc_rows name desc ∧
    (slack_desc_rows name desc).length = 11 ∧
    slack_desc_rows name desc =
      ((desc_lines desc).take 11).map (fun l => name ++ ": " ++ l) ++
        List.replicate (11 - (desc_lines desc).length) (name ++ ":") := by
  refine ⟨?_, ?_, ?_⟩
  · simp [slack_desc_file, slack_desc_header]
  · simp [slack_desc_rows]
  · exact range_map_padded _ _ _ 11

/-- C2 counterexample: the claim that every wrapped description line has a text
portion of at most 60 characters fails on a description that is a single word of
61 characters — the wrap emits that word as a line of length 61. -/
theorem wrap_budget_counterexample :
    ¬ (∀ l ∈ desc_lines "aaaaaaaaaaaaaaaaaaaaaaaaaaaaaaaaaaaaaaaaaaaaaaaaaaaaaaaaaaaaa",
        l.length ≤ 60) := by
  decide

/-- C2 amended: for every description string in which every whitespace-separated
word is at most 60 characters long, every wrapped description line produced by
the greedy word-wrap of `create_slack_desc` has a text portion of at most 60
characters. -/
theorem wrap_budget_of_bounded_words (desc : String)
    (h : ∀ w ∈ py_split desc, w.length ≤ 60) :
    ∀ l ∈ desc_lines desc, l.length ≤ 60 := by
  unfold desc_lines
  exact wrap_loop_bound (py_split desc) [] "" h (by simp) (by decide)

theorem wrap_budget_of_bounded_words_witness :
    (∀ w ∈ py_split "a compact description of a package", w.length ≤ 60) ∧
    (∀ l ∈ desc_lines "a compact description of a package", l.length ≤ 60) :=
  ⟨by decide, wrap_budget_of_bounded_words "a compact description of a package" (by decide)⟩

/-- C3: for every tag string, when the tag is non-empty, starts with the
character `v` and the character after the `v` is a digit, the derived version is
the tag with the leading `v` removed; for any other tag the derived version is
the tag verbatim. -/
theorem version_derivation_from_tag (t : String) :
    ((∃ c rest, t.data = 'v' :: c :: rest ∧ c.isDigit = true) →
      (derive_version_from_tag t).data = t.data.tail) ∧
    ((∀ c rest, t.data = 'v' :: c :: rest → c.isDigit = false) →
      derive_version_from_tag t = t) := by
  obtain ⟨d⟩ := t
  constructor
  · rintro ⟨c, rest, hdata, hdig⟩
    have hd : d = 'v' :: c :: rest := hdata
    subst hd
    unfold derive_version_from_tag
    simp [hdig]
  · intro hother
    unfold derive_version_from_tag
    split
    · rename_i c rest hpat
      have hpat2 : d = 'v' :: c :: rest := hpat
      rw [if_neg (by simp [hother c rest hpat2])]
    · rfl

theorem version_derivation_from_tag_witness :
    ((derive_version_from_tag "v1.2.3").data = ("v1.2.3" : String).data.tail) ∧
    (derive_version_from_tag "main" = "main") :=
  ⟨(version_derivation_from_tag "v1.2.3").1 ⟨'1', ".2.3".data, by decide, by decide⟩,
   (version_derivation_from_tag "main").2 (fun c rest h => by simp at h)⟩

/-- C4: for every package and arch, `create_package_archive` names its output
file `name-version-arch-build.tgz` inside the given output directory, the arch
default is `x86_64`, the release-download path names its saved artifact by the
same convention, and the example name=foo version=1.2.3 arch=x86_64 build=1
yields `foo-1.2.3-x86_64-1.tgz`. -/
theorem archive_filename_convention (pkg : Package) (arch : String)
    (output_dir : List String) :
    create_package_archive true pkg output_dir arch =
      some (output_dir ++
        [pkg.name ++ "-" ++ pkg.version ++ "-" ++ arch ++ "-" ++
          toString pkg.build ++ ".tgz"]) ∧
    defaultArch = "x86_64" ∧
    download_release_filename pkg arch = create_package_archive_filename pkg arch ∧
    create_package_archive_filename fooPkg defaultArch = "foo-1.2.3-x86_64-1.tgz" :=
  ⟨rfl, rfl, rfl, by decide⟩

/-- C10: for every description whose first whitespace-separated word is longer
than 59 characters, the word-wrap flushes the still-empty current line first, so
the first description row of slack-desc is `name ++ ": "` with a trailing space
and empty text, and the oversized word is emitted on the next row without
truncation. -/
theorem oversized_first_word_rows (name desc w : String)
    (hw : (py_split desc)[0]? = some w) (hlen : 59 < w.length) :
    (slack_desc_rows name desc)[0]? = some (name ++ ": ") ∧
    (slack_desc_rows name desc)[1]? = some (name ++ ": " ++ w) := by
  have hmem : w ∈ py_split desc := List.getElem?_mem hw
  obtain ⟨ws, hsplit⟩ : ∃ ws, py_split desc = w :: ws := by
    cases hps : py_split desc with
    | nil => rw [hps] at hw; simp at hw
    | cons a l =>
      rw [hps, List.getElem?_cons_zero] at hw
      exact ⟨l, by rw [Option.some_inj.mp hw]⟩
  have hflush : ∃ rest, desc_lines desc = "" :: w :: rest := by
    unfold desc_lines
    rw [hsplit]
    unfold wrap_loop
    rw [if_neg (by
      have h0 : ("" : String).length = 0 := rfl
      omega)]
    have h60 : 60 ≤ (w ++ " ").length := by
      rw [String.length_append]
      have h1 : (" " : String).length = 1 := rfl
      omega
    rcases wrap_loop_flush_head ws ([] ++ [py_strip ""]) (w ++ " ") h60 with ⟨rest, hrest⟩
    refine ⟨rest, ?_⟩
    rw [hrest, py_strip_append_space, py_strip_of_split desc w hmem]
    rfl
  rcases hflush with ⟨rest, hdl⟩
  constructor
  · unfold slack_desc_rows
    rw [List.getElem?_map _ _ 0, List.getElem?_range (by omega : 0 < 11)]
    rw [hdl]
    simp [String.append_empty]
  · unfold slack_desc_rows
    rw [List.getElem?_map _ _ 1, List.getElem?_range (by omega : 1 < 11)]
    rw [hdl]
    simp

theorem oversized_first_word_rows_witness :
    (slack_desc_rows "pkg"
        "bbbbbbbbbbbbbbbbbbbbbbbbbbbbbbbbbbbbbbbbbbbbbbbbbbbbbbbbbbbb")[0]? =
      some ("pkg" ++ ": ") ∧
    (slack_desc_rows "pkg"
        "bbbbbbbbbbbbbbbbbbbbbbbbbbbbbbbbbbbbbbbbbbbbbbbbbbbbbbbbbbbb")[1]? =
      some ("pkg" ++ ": " ++
        "bbbbbbbbbbbbbbbbbbbbbbbbbbbbbbbbbbbbbbbbbbbbbbbbbbbbbbbbbbbb") :=
  oversized_first_word_rows "pkg"
    "bbbbbbbbbbbbbbbbbbbbbbbbbbbbbbbbbbbbbbbbbbbbbbbbbbbbbbbbbbbb"
    "bbbbbbbbbbbbbbbbbbbbbbbbbbbbbbbbbbbbbbbbbbbbbbbbbbbbbbbbbbbb"
    (by decide) (by decide)

/-- C5 evidence of the code bug: for the concrete release-flagged package,
`construct_release_url` raises `AttributeError` (the `Package` model defines
`tag`, not `branch`), so no download URL is ever produced and the pipeline
reports failure with an empty action trace — no git acquisition, no build, no
curl; the spec-worded URL template would have produced the shown URL. -/
theorem release_url_attribute_error :
    construct_release_url microPkg = Except.error PyExc.attributeError ∧
    spec_release_url microPkg =
      "https://github.com/zyedidia/micro/releases/download/v2.0.14/micro-2.0.14-linux64.tgz" ∧
    build_single_package_direct allOkEnv microPkg = (false, []) :=
  ⟨rfl, by decide, rfl⟩

/-- C6: for every package in the configured list with enabled false, the
orchestrator never performs acquisition, build, staging, or archiving for that
package — its report carries an empty action trace — and reports it as skipped;
the same holds in the legacy revision. -/
theorem disabled_package_skipped
    (env : Env) (pkgs : List Package) (i : Nat) (pkg : Package)
    (lenv : Legacy.LEnv) (lpkgs : List Legacy.LPackage) (j : Nat)
    (lpkg : Legacy.LPackage) :
    (pkgs[i]? = some pkg → pkg.enabled = false →
      (build_all_packages env pkgs)[i]? = some (Report.skipped pkg.name) ∧
      ((build_all_packages env pkgs)[i]?).map Report.actions = some []) ∧
    (lpkgs[j]? = some lpkg → lpkg.enabled = false →
      (Legacy.build_all_packages lenv lpkgs)[j]? =
        some (Legacy.LReport.skipped lpkg.name)) := by
  constructor
  · intro hget hdis
    unfold build_all_packages
    rw [List.getElem?_map _ _ i, hget]
    simp [hdis, Report.actions]
  · intro hget hdis
    unfold Legacy.build_all_packages
    rw [List.getElem?_map _ _ j, hget]
    simp [hdis]

theorem disabled_package_skipped_witness :
    ((build_all_packages allOkEnv [disabledPkg])[0]? =
      some (Report.skipped disabledPkg.name) ∧
      ((build_all_packages allOkEnv [disabledPkg])[0]?).map Report.actions = some []) ∧
    (Legacy.build_all_packages Legacy.allOkEnv [Legacy.sampleDisabledPkg])[0]? =
      some (Legacy.LReport.skipped Legacy.sampleDisabledPkg.name) := by
  have h := disabled_package_skipped allOkEnv [disabledPkg] 0 disabledPkg
    Legacy.allOkEnv [Legacy.sampleDisabledPkg] 0 Legacy.sampleDisabledPkg
  exact ⟨h.1 rfl rfl, h.2 rfl rfl⟩

/-- C7: for every package and source tree such that no registered build
strategy claims the package, `build_package` returns failure deterministically
with an empty action trace — no strategy build and no external process runs.
In the modular revision the registered list is the single generic command
builder; in the legacy revision it is the single Cargo builder, whose claim
check is the presence of a Cargo.toml in the cloned tree. -/
theorem no_builder_claims_build_fails
    (env : Env) (pkg : Package) (lenv : Legacy.LEnv) (lpkg : Legacy.LPackage) :
    (genericCanBuild pkg = false → build_package env pkg = (false, [])) ∧
    (lenv.hasCargo lpkg = false →
      Legacy.build_package lenv lpkg = (Except.ok false, [])) := by
  constructor
  · intro h
    unfold build_package
    rw [h]
    rfl
  · intro h
    unfold Legacy.build_package
    rw [h]
    rfl

theorem no_builder_claims_build_fails_witness :
    build_package allOkEnv microPkg = (false, []) ∧
    Legacy.build_package Legacy.noCargoEnv Legacy.samplePkg = (Except.ok false, []) := by
  have h := no_builder_claims_build_fails allOkEnv microPkg Legacy.noCargoEnv
    Legacy.samplePkg
  exact ⟨h.1 rfl, h.2 rfl⟩

/-- C8: packages are processed in configuration order — the report list is
index-aligned with the package list and the entry at each index is a function of
that package alone, so no failure of one package affects any other — and for
every package whose pipeline creates a temporary working directory (every
enabled package in the legacy loop; every non-release package in the modular
pipeline) the cleanup of that directory is recorded at the end of its trace
regardless of which stage failed. -/
theorem failure_is_local_and_cleanup_attempted
    (env : Env) (pkgs : List Package) (i : Nat) (pkg : Package)
    (lenv : Legacy.LEnv) (lpkgs : List Legacy.LPackage) (j : Nat)
    (lpkg : Legacy.LPackage) :
    (build_all_packages env pkgs).length = pkgs.length ∧
    (Legacy.build_all_packages lenv lpkgs).length = lpkgs.length ∧
    (pkgs[i]? = some pkg →
      (build_all_packages env pkgs)[i]? =
        some (if pkg.enabled then
            Report.processed pkg.name (build_single_package_direct env pkg).1
              (build_single_package_direct env pkg).2
          else Report.skipped pkg.name)) ∧
    (lpkgs[j]? = some lpkg →
      (Legacy.build_all_packages lenv lpkgs)[j]? =
        some (if lpkg.enabled then
            Legacy.LReport.processed lpkg.name (Legacy.process_one lenv lpkg)
          else Legacy.LReport.skipped lpkg.name)) ∧
    (pkg.release = false →
      Act.cleanup pkg.name ∈ (build_single_package_direct env pkg).2) ∧
    (Act.cleanup lpkg.name ∈ (Legacy.process_one lenv lpkg).2) := by
  refine ⟨?_, ?_, ?_, ?_, ?_, ?_⟩
  · simp [build_all_packages]
  · simp [Legacy.build_all_packages]
  · intro hget
    unfold build_all_packages
    rw [List.getElem?_map _ _ i, hget]
    rfl
  · intro hget
    unfold Legacy.build_all_packages
    rw [List.getElem?_map _ _ j, hget]
    rfl
  · intro hrel
    unfold build_single_package_direct
    rw [hrel]
    simp
  · unfold Legacy.process_one
    simp

theorem failure_is_local_and_cleanup_attempted_witness :
    ((build_all_packages allOkEnv [fooPkg])[0]? =
      some (if fooPkg.enabled then
          Report.processed fooPkg.name (build_single_package_direct allOkEnv fooPkg).1
            (build_single_package_direct allOkEnv fooPkg).2
        else Report.skipped fooPkg.name)) ∧
    ((Legacy.build_all_packages Legacy.allOkEnv [Legacy.samplePkg])[0]? =
      some (if Legacy.samplePkg.enabled then
          Legacy.LReport.processed Legacy.samplePkg.name
            (Legacy.process_one Legacy.allOkEnv Legacy.samplePkg)
        else Legacy.LReport.skipped Legacy.samplePkg.name)) ∧
    (Act.cleanup fooPkg.name ∈ (build_single_package_direct allOkEnv fooPkg).2) ∧
    (Act.cleanup Legacy.samplePkg.name ∈
      (Legacy.process_one Legacy.allOkEnv Legacy.samplePkg).2) := by
  have h := failure_is_local_and_cleanup_attempted allOkEnv [fooPkg] 0 fooPkg
    Legacy.allOkEnv [Legacy.samplePkg] 0 Legacy.samplePkg
  exact ⟨h.2.2.1 rfl, h.2.2.2.1 rfl, h.2.2.2.2.1 rfl, h.2.2.2.2.2⟩

/-- C9 counterexample: in batch mode the process exit code is 0 even though the
single enabled package build failed, contradicting the claim that the exit code
is non-zero on any package build failure in both modes. -/
theorem batch_exit_code_counterexample :
    main_exit allOkEnv (ConfigFile.parsed [fooPkg]) { package := none } = 0 ∧
    (build_single_package_direct allOkEnv fooPkg).1 = false :=
  ⟨rfl, rfl⟩


lemma main_exit_missing (env : Env) (args : Args) :
    main_exit env ConfigFile.missing args = 1 := rfl

lemma main_exit_parsed_some (env : Env) (pkgs : List Package) (pname : String) :
    main_exit env (ConfigFile.parsed pkgs) { package := some pname } =
      match find_package_in_config (ConfigFile.parsed pkgs) pname with
      | none => 1
      | some pkg => if (build_single_package_direct env pkg).1 then 0 else 1 := rfl

/-- C9 amended: the exit code is 0 or 1; it is 1 when the configuration file is
missing; in single-package mode it is 1 when the named package is not found and
otherwise 0 exactly when that package built successfully; in batch mode it is 1
when the configuration is missing or unreadable, and 0 whenever the
configuration loads — a package build failure does not affect it. -/
theorem exit_code_policy (env : Env) (cf : ConfigFile) (args : Args) :
    (main_exit env cf args = 0 ∨ main_exit env cf args = 1) ∧
    (cf = ConfigFile.missing → main_exit env cf args = 1) ∧
    (∀ pname, args.package = some pname → find_package_in_config cf pname = none →
      main_exit env cf args = 1) ∧
    (∀ pname pkg, args.package = some pname → cf ≠ ConfigFile.missing →
      find_package_in_config cf pname = some pkg →
      (main_exit env cf args = 0 ↔ (build_single_package_direct env pkg).1 = true)) ∧
    (args.package = none → ∀ pkgs, cf = ConfigFile.parsed pkgs →
      main_exit env cf args = 0) ∧
    (args.package = none → cf = ConfigFile.malformed → main_exit env cf args = 1) := by
  obtain ⟨ap⟩ := args
  refine ⟨?_, ?_, ?_, ?_, ?_, ?_⟩
  · cases cf with
    | missing => exact Or.inr rfl
    | malformed =>
      cases ap with
      | none => exact Or.inr rfl
      | some p => exact Or.inr rfl
    | parsed pkgs =>
      cases ap with
      | none => exact Or.inl rfl
      | some p =>
        rw [main_exit_parsed_some]
        cases hfind : find_package_in_config (ConfigFile.parsed pkgs) p with
        | none => exact Or.inr rfl
        | some pkg =>
          cases hb : (build_single_package_direct env pkg).1 with
          | true => exact Or.inl (by simp [hb])
          | false => exact Or.inr (by simp [hb])
  · intro h
    subst h
    rfl
  · intro pname hap hfind
    obtain rfl : ap = some pname := hap
    cases cf with
    | missing => rfl
    | malformed => rfl
    | parsed pkgs => rw [main_exit_parsed_some, hfind]
  · intro pname pkg hap hne hfind
    obtain rfl : ap = some pname := hap
    cases cf with
    | missing => exact absurd rfl hne
    | malformed =>
      rw [show find_package_in_config ConfigFile.malformed pname = none from rfl]
        at hfind
      exact Option.noConfusion hfind
    | parsed pkgs =>
      rw [main_exit_parsed_some, hfind]
      cases hb : (build_single_package_direct env pkg).1 with
      | true => simp [hb]
      | false => simp [hb]
  · intro hap pkgs hcf
    obtain rfl : ap = none := hap
    subst hcf
    rfl
  · intro hap hcf
    obtain rfl : ap = none := hap
    subst hcf
    rfl

theorem exit_code_policy_witness :
    main_exit allOkEnv ConfigFile.missing { package := none } = 1 ∧
    main_exit allOkEnv (ConfigFile.parsed []) { package := some "nope" } = 1 ∧
    (main_exit allOkEnv (ConfigFile.parsed [fooPkg]) { package := some "foo" } = 0 ↔
      (build_single_package_direct allOkEnv fooPkg).1 = true) ∧
    main_exit allOkEnv (ConfigFile.parsed [fooPkg]) { package := none } = 0 ∧
    main_exit allOkEnv ConfigFile.malformed { package := none } = 1 := by
  refine ⟨?_, ?_, ?_, ?_, ?_⟩
  · exact (exit_code_policy allOkEnv ConfigFile.missing { package := none }).2.1 rfl
  · exact (exit_code_policy allOkEnv (ConfigFile.parsed [])
      { package := some "nope" }).2.2.1 "nope" rfl rfl
  · exact (exit_code_policy allOkEnv (ConfigFile.parsed [fooPkg])
      { package := some "foo" }).2.2.2.1 "foo" fooPkg rfl
      (by intro h; cases h) rfl
  · exact (exit_code_policy allOkEnv (ConfigFile.parsed [fooPkg])
      { package := none }).2.2.2.2.1 rfl [fooPkg] rfl
  · exact (exit_code_policy allOkEnv ConfigFile.malformed
      { package := none }).2.2.2.2.2 rfl rfl
